import Mathlib

/-!
Verification of the `ConvolutionKernel` class from
`src/python/convolution_kernel/convolution_kernel.py`.

Modelling conventions:
* Real-valued cells, weights and samples are modelled as `ℚ`.
* Python `int` coordinates are modelled as `ℤ`; Python `range(n)` over a
  possibly negative `n : ℤ` is `List.range n.toNat`.
* The matrix is stored exactly as `__init__` stores it: a list of columns,
  `matrix[x][y]`, with `width = len(matrix)` and `height = len(matrix[0])`.
* Fallible operations (`__init__`, `__getitem__`, `__setitem__`, the anchor
  setter, and `apply`, which can hit a `ZeroDivisionError`) return `Except`.
  A Python method that raises before mutating is modelled as returning
  `.error` and no new state.
* In `apply`, Python raises `ZeroDivisionError` at the first output cell
  when `weight == 0`; since the divisor is the same at every cell and a cell
  is computed iff both limits are positive, this is hoisted to a single
  guard in front of the (otherwise cell-by-cell) grid construction.
  The imperative fill of `output` (each cell written exactly once, in loop
  order) is modelled as direct construction of the same grid.
-/

/-- Error kinds raised by the class, by the source's numbering:
`ShapeError` = ValueError [1] of `__init__`, `AnchorUndeterminedError` =
ValueError [2], `AnchorOutOfRangeError` = IndexError [3],
`IndexOutOfRangeError` = IndexError of the accessors, and the
`ZeroDivisionError` Python raises inside `apply`. -/
inductive KError where
  | shapeError
  | anchorUndetermined
  | anchorOutOfRange
  | indexOutOfRange
  | divisionByZero
  deriving DecidableEq, Repr

/-- The kernel state: `_matrix` (a list of `width` columns of `height`
cells each, `matrix[x][y]`) and `_anchor` (an `(x, y)` pair). -/
structure ConvolutionKernel where
  matrix : List (List ℚ)
  anchor : ℤ × ℤ
  deriving DecidableEq, Repr

namespace ConvolutionKernel

/-- `width` property: `len(self._matrix)`. -/
def width (K : ConvolutionKernel) : ℕ := K.matrix.length

/-- `height` property: `len(self._matrix[0])`. -/
def height (K : ConvolutionKernel) : ℕ := (K.matrix.headD []).length

/-- The in-range matrix access `self._matrix[kx][ky]` (used by `apply`
through `__getitem__`, whose bounds check always passes there). -/
def kernelVal (K : ConvolutionKernel) (kx ky : ℕ) : ℚ :=
  (K.matrix.getD kx []).getD ky 0

/-- The defensive copy `__init__` makes:
`[[matrix[col][row] for row in range(len(matrix[0]))] for col in range(len(matrix))]`. -/
def copyMatrix (matrix : List (List ℚ)) : List (List ℚ) :=
  (List.range matrix.length).map fun col =>
    (List.range (matrix.headD []).length).map fun row =>
      (matrix.getD col []).getD row 0

/-- `ConvolutionKernel.__init__(matrix, anchor)`. Validation order follows
the source: shape check first, then anchor handling. -/
def init (matrix : List (List ℚ)) (anchor : Option (ℤ × ℤ)) :
    Except KError ConvolutionKernel :=
  if ¬ (∀ inner ∈ matrix.drop 1, inner.length = (matrix.headD []).length) then
    .error .shapeError
  else
    match anchor with
    | none =>
        if matrix.length % 2 = 0 ∨ (matrix.headD []).length % 2 = 0 then
          .error .anchorUndetermined
        else
          .ok ⟨copyMatrix matrix,
               (((matrix.length - 1) / 2 : ℕ), (((matrix.headD []).length - 1) / 2 : ℕ))⟩
    | some a =>
        if ¬ (0 ≤ a.1 ∧ a.1 < (matrix.length : ℤ)) ∨
           ¬ (0 ≤ a.2 ∧ a.2 < ((matrix.headD []).length : ℤ)) then
          .error .anchorOutOfRange
        else
          .ok ⟨copyMatrix matrix, a⟩

/-- `ConvolutionKernel.__getitem__(index)`. -/
def getitem (K : ConvolutionKernel) (index : ℤ × ℤ) : Except KError ℚ :=
  if ¬ (0 ≤ index.1 ∧ index.1 < (K.width : ℤ)) ∨
     ¬ (0 ≤ index.2 ∧ index.2 < (K.height : ℤ)) then
    .error .indexOutOfRange
  else
    .ok ((K.matrix.getD index.1.toNat []).getD index.2.toNat 0)

/-- `ConvolutionKernel.__setitem__(index, value)`; returns the new state. -/
def setitem (K : ConvolutionKernel) (index : ℤ × ℤ) (value : ℚ) :
    Except KError ConvolutionKernel :=
  if ¬ (0 ≤ index.1 ∧ index.1 < (K.width : ℤ)) ∨
     ¬ (0 ≤ index.2 ∧ index.2 < (K.height : ℤ)) then
    .error .indexOutOfRange
  else
    .ok ⟨K.matrix.set index.1.toNat
          ((K.matrix.getD index.1.toNat []).set index.2.toNat value), K.anchor⟩

/-- The `anchor` property setter; returns the new state. -/
def setAnchor (K : ConvolutionKernel) (value : ℤ × ℤ) :
    Except KError ConvolutionKernel :=
  if ¬ (0 ≤ value.1 ∧ value.1 < (K.width : ℤ)) ∨
     ¬ (0 ≤ value.2 ∧ value.2 < (K.height : ℤ)) then
    .error .indexOutOfRange
  else
    .ok ⟨K.matrix, value⟩

/-- The accumulator `new_total` computed by `apply` for output cell
`(ox, oy)`: the kernel double loop (`kernel_iy` outer, `kernel_ix` inner),
with `target = (ox + kx - (width-1)//2, oy + ky - (height-1)//2)`, adding
`function(target) * self[kx, ky]` in-domain and `default * self[kx, ky]`
otherwise. -/
def applyCell (K : ConvolutionKernel) (f : ℤ × ℤ → ℚ) (limits : ℤ × ℤ)
    (default : ℚ) (ox oy : ℤ) : ℚ :=
  (List.range K.height).foldl (fun acc (ky : ℕ) =>
    (List.range K.width).foldl (fun acc2 (kx : ℕ) =>
      if 0 ≤ ox + (kx : ℤ) - ((K.width - 1) / 2 : ℕ) ∧
         ox + (kx : ℤ) - ((K.width - 1) / 2 : ℕ) < limits.1 ∧
         0 ≤ oy + (ky : ℤ) - ((K.height - 1) / 2 : ℕ) ∧
         oy + (ky : ℤ) - ((K.height - 1) / 2 : ℕ) < limits.2 then
        acc2 + f (ox + (kx : ℤ) - ((K.width - 1) / 2 : ℕ),
                  oy + (ky : ℤ) - ((K.height - 1) / 2 : ℕ)) * K.kernelVal kx ky
      else
        acc2 + default * K.kernelVal kx ky) acc) 0

/-- The output grid of `apply`: `limits[0]` columns of `limits[1]` entries,
`output[ox][oy] = new_total / weight`. -/
def applyGrid (K : ConvolutionKernel) (f : ℤ × ℤ → ℚ) (limits : ℤ × ℤ)
    (weight default : ℚ) : List (List ℚ) :=
  (List.range limits.1.toNat).map fun (ix : ℕ) =>
    (List.range limits.2.toNat).map fun (iy : ℕ) =>
      applyCell K f limits default (ix : ℤ) (iy : ℤ) / weight

/-- `ConvolutionKernel.apply(function, limits, weight, default)`.
When both limits are positive the cell loop runs and Python's `/` raises
`ZeroDivisionError` if `weight == 0`; otherwise the grid is returned. -/
def apply (K : ConvolutionKernel) (f : ℤ × ℤ → ℚ) (limits : ℤ × ℤ)
    (weight default : ℚ) : Except KError (List (List ℚ)) :=
  if 0 < limits.1 ∧ 0 < limits.2 ∧ weight = 0 then
    .error .divisionByZero
  else
    .ok (applyGrid K f limits weight default)

end ConvolutionKernel

namespace ConvolutionKernel

/-- The value §4.3 of the spec prescribes for output cell `(ox, oy)`:
`(sum over all kernel coordinates (kx, ky) of v · K(kx, ky)) / w`, where
`v = f(sx, sy)` if `(sx, sy) = (ox + kx − ⌊(kW−1)/2⌋, oy + ky − ⌊(kH−1)/2⌋)`
lies inside `[0, W) × [0, H)` and `v = d` otherwise. -/
def specConvValue (K : ConvolutionKernel) (f : ℤ × ℤ → ℚ) (W H : ℤ)
    (w d : ℚ) (ox oy : ℤ) : ℚ :=
  (∑ kx ∈ Finset.range K.width, ∑ ky ∈ Finset.range K.height,
    (if 0 ≤ ox + (kx : ℤ) - ((K.width - 1) / 2 : ℕ) ∧
        ox + (kx : ℤ) - ((K.width - 1) / 2 : ℕ) < W ∧
        0 ≤ oy + (ky : ℤ) - ((K.height - 1) / 2 : ℕ) ∧
        oy + (ky : ℤ) - ((K.height - 1) / 2 : ℕ) < H then
      f (ox + (kx : ℤ) - ((K.width - 1) / 2 : ℕ),
         oy + (ky : ℤ) - ((K.height - 1) / 2 : ℕ))
    else d) * K.kernelVal kx ky) / w

/-- The accumulator only reads the sampler at coordinates the in-domain
guard has admitted, so samplers agreeing on `[0, limits.1) × [0, limits.2)`
yield the same accumulator. -/
lemma applyCell_congr (K : ConvolutionKernel) (f g : ℤ × ℤ → ℚ)
    (limits : ℤ × ℤ) (d : ℚ) (ox oy : ℤ)
    (h : ∀ x y : ℤ, 0 ≤ x → x < limits.1 → 0 ≤ y → y < limits.2 →
      f (x, y) = g (x, y)) :
    applyCell K f limits d ox oy = applyCell K g limits d ox oy := by
  unfold applyCell
  apply List.foldl_ext
  intro acc ky _
  apply List.foldl_ext
  intro acc2 kx _
  split_ifs with hc
  · rw [h _ _ hc.1 hc.2.1 hc.2.2.1 hc.2.2.2]
  · rfl

lemma foldl_add_shift (g : ℕ → ℚ) :
    ∀ (l : List ℕ) (a : ℚ), l.foldl (fun acc k => acc + g k) a = a + (l.map g).sum := by
  intro l
  induction l with
  | nil => intro a; simp
  | cons hd tl ih => intro a; simp [ih, add_assoc]

lemma foldl_ite_add (c : ℕ → Prop) [DecidablePred c] (X Y : ℕ → ℚ) :
    ∀ (l : List ℕ) (a : ℚ),
      l.foldl (fun acc k => if c k then acc + X k else acc + Y k) a =
        a + (l.map (fun k => if c k then X k else Y k)).sum := by
  intro l
  induction l with
  | nil => intro a; simp
  | cons hd tl ih =>
      intro a
      by_cases h : c hd <;> simp [h, ih, add_assoc]

lemma range_map_sum (g : ℕ → ℚ) (n : ℕ) :
    ((List.range n).map g).sum = ∑ k ∈ Finset.range n, g k := by
  induction n with
  | zero => simp
  | succ m ih => simp [List.range_succ, Finset.sum_range_succ, ih]

/-- The nested accumulator loop of `apply` computes the double sum of the
per-neighbor contributions. -/
lemma applyCell_eq_sum (K : ConvolutionKernel) (f : ℤ × ℤ → ℚ)
    (limits : ℤ × ℤ) (d : ℚ) (ox oy : ℤ) :
    applyCell K f limits d ox oy =
      ∑ ky ∈ Finset.range K.height, ∑ kx ∈ Finset.range K.width,
        (if 0 ≤ ox + (kx : ℤ) - ((K.width - 1) / 2 : ℕ) ∧
            ox + (kx : ℤ) - ((K.width - 1) / 2 : ℕ) < limits.1 ∧
            0 ≤ oy + (ky : ℤ) - ((K.height - 1) / 2 : ℕ) ∧
            oy + (ky : ℤ) - ((K.height - 1) / 2 : ℕ) < limits.2 then
          f (ox + (kx : ℤ) - ((K.width - 1) / 2 : ℕ),
             oy + (ky : ℤ) - ((K.height - 1) / 2 : ℕ))
        else d) * K.kernelVal kx ky := by
  unfold applyCell
  simp only [foldl_ite_add, foldl_add_shift, zero_add, range_map_sum]
  refine Finset.sum_congr rfl fun ky _ => Finset.sum_congr rfl fun kx _ => ?_
  split_ifs <;> ring

end ConvolutionKernel

open ConvolutionKernel

/-- All inner sequences having pairwise equal lengths is what the source's
guard (`len(inner) == len(matrix[0])` over `matrix[1:]`) checks. -/
lemma pairwise_len_iff_guard (m : List (List ℚ)) :
    (∀ r ∈ m, ∀ s ∈ m, r.length = s.length) ↔
      (∀ inner ∈ m.drop 1, inner.length = (m.headD []).length) := by
  cases m with
  | nil => simp
  | cons h t =>
      simp only [List.headD_cons, List.drop_one, List.tail_cons]
      constructor
      · intro hp r hr
        exact hp r (List.mem_cons_of_mem h hr) h (List.mem_cons_self h t)
      · intro hg r hr s hs
        rcases List.mem_cons.mp hr with rfl | hr' <;>
          rcases List.mem_cons.mp hs with rfl | hs'
        · rfl
        · exact (hg s hs').symm
        · exact hg r hr'
        · exact (hg r hr').trans (hg s hs').symm

lemma getD_map_range {α : Type} (g : ℕ → α) (n i : ℕ) (h : i < n) (dflt : α) :
    ((List.range n).map g).getD i dflt = g i := by
  simp [List.getD_eq_getElem?_getD, List.getElem?_map, List.getElem?_range, h]

/-- C1: with a non-zero weight, `apply` succeeds and returns a grid of `W`
columns of `H` entries whose cell `(ox, oy)` holds exactly the value of
§4.3's formula: the sum over all kernel coordinates of the (in-domain
sample / default) value times the kernel cell, divided by the weight. -/
theorem conv_apply_matches_spec (K : ConvolutionKernel) (f : ℤ × ℤ → ℚ)
    (W H : ℤ) (w d : ℚ) (hw : w ≠ 0) (hW : 0 ≤ W) (hH : 0 ≤ H) :
    K.apply f (W, H) w d = .ok (K.applyGrid f (W, H) w d) ∧
    (K.applyGrid f (W, H) w d).length = W.toNat ∧
    (∀ col ∈ K.applyGrid f (W, H) w d, col.length = H.toNat) ∧
    ∀ ox oy : ℤ, 0 ≤ ox → ox < W → 0 ≤ oy → oy < H →
      ((K.applyGrid f (W, H) w d).getD ox.toNat []).getD oy.toNat 0 =
        K.specConvValue f W H w d ox oy := by
  refine ⟨?_, ?_, ?_, ?_⟩
  · unfold ConvolutionKernel.apply
    rw [if_neg]
    rintro ⟨-, -, h0⟩
    exact hw h0
  · simp [applyGrid]
  · intro col hcol
    unfold applyGrid at hcol
    obtain ⟨ix, -, rfl⟩ := List.mem_map.mp hcol
    simp
  · intro ox oy hox₀ hoxW hoy₀ hoyH
    unfold applyGrid
    rw [getD_map_range _ _ _ (by omega), getD_map_range _ _ _ (by omega),
        Int.toNat_of_nonneg hox₀, Int.toNat_of_nonneg hoy₀,
        applyCell_eq_sum]
    unfold specConvValue
    rw [Finset.sum_comm]

theorem conv_apply_matches_spec_witness :
    ConvolutionKernel.apply ⟨[[1]], (0, 0)⟩ (fun _ => 2) (1, 1) 1 0 =
      .ok (ConvolutionKernel.applyGrid ⟨[[1]], (0, 0)⟩ (fun _ => 2) (1, 1) 1 0) ∧
    ((ConvolutionKernel.applyGrid ⟨[[1]], (0, 0)⟩ (fun _ => 2) (1, 1) 1 0).getD
        (0 : ℤ).toNat []).getD (0 : ℤ).toNat 0 =
      ConvolutionKernel.specConvValue ⟨[[1]], (0, 0)⟩ (fun _ => 2) 1 1 1 0 0 0 :=
  ⟨(conv_apply_matches_spec ⟨[[1]], (0, 0)⟩ (fun _ => 2) 1 1 1 0
      (by norm_num) (by norm_num) (by norm_num)).1,
   (conv_apply_matches_spec ⟨[[1]], (0, 0)⟩ (fun _ => 2) 1 1 1 0
      (by norm_num) (by norm_num) (by norm_num)).2.2.2 0 0
      le_rfl (by norm_num) le_rfl (by norm_num)⟩

/-- C2: `apply` never reads the stored anchor — kernels with cell-for-cell
equal matrices produce identical outputs for every sampler, limits, weight
and default, because the convolution offset is computed from the kernel's
dimensions alone. -/
theorem conv_apply_ignores_anchor (K₁ K₂ : ConvolutionKernel)
    (hm : K₁.matrix = K₂.matrix) (f : ℤ × ℤ → ℚ) (limits : ℤ × ℤ)
    (w d : ℚ) : K₁.apply f limits w d = K₂.apply f limits w d := by
  obtain ⟨m₁, a₁⟩ := K₁
  obtain ⟨m₂, a₂⟩ := K₂
  cases hm
  rfl

theorem conv_apply_ignores_anchor_witness :
    ConvolutionKernel.apply ⟨[[1]], (0, 0)⟩ (fun _ => 0) (1, 1) 1 0 =
      ConvolutionKernel.apply ⟨[[1]], (7, 9)⟩ (fun _ => 0) (1, 1) 1 0 :=
  conv_apply_ignores_anchor ⟨[[1]], (0, 0)⟩ ⟨[[1]], (7, 9)⟩ rfl _ _ _ _

/-- C3: `apply` only ever consults the sampler inside `[0, W) × [0, H)`:
two samplers that agree on that domain (and may differ arbitrarily outside
it) produce identical results, so no out-of-domain coordinate is ever
sampled — out-of-domain neighbors use the default constant instead. -/
theorem conv_apply_sampler_in_domain (K : ConvolutionKernel)
    (f g : ℤ × ℤ → ℚ) (W H : ℤ) (w d : ℚ)
    (h : ∀ x y : ℤ, 0 ≤ x → x < W → 0 ≤ y → y < H → f (x, y) = g (x, y)) :
    K.apply f (W, H) w d = K.apply g (W, H) w d := by
  unfold ConvolutionKernel.apply applyGrid
  have : ∀ (ix iy : ℕ), applyCell K f (W, H) d ix iy = applyCell K g (W, H) d ix iy :=
    fun ix iy => applyCell_congr K f g (W, H) d ix iy h
  simp only [this]

theorem conv_apply_sampler_in_domain_witness :
    ConvolutionKernel.apply ⟨[[1]], (0, 0)⟩ (fun _ => 1) (2, 2) 1 0 =
      ConvolutionKernel.apply ⟨[[1]], (0, 0)⟩
        (fun p => if 0 ≤ p.1 ∧ p.1 < 2 ∧ 0 ≤ p.2 ∧ p.2 < 2 then 1 else 99) (2, 2) 1 0 :=
  conv_apply_sampler_in_domain ⟨[[1]], (0, 0)⟩ _ _ 2 2 1 0
    (fun x y h1 h2 h3 h4 => by simp [h1, h2, h3, h4])

/-- C10: when either limit is zero the cell loop body never runs: `apply`
returns `limits.1` empty columns (the empty list when `limits.1 = 0`),
never invokes the sampler, and never divides by `weight` — so it succeeds
even when `weight = 0`. -/
theorem conv_apply_degenerate_limits (K : ConvolutionKernel)
    (f : ℤ × ℤ → ℚ) (W H : ℤ) (w d : ℚ) (h : W = 0 ∨ H = 0) :
    K.apply f (W, H) w d = .ok (List.replicate W.toNat []) ∧
      ∀ g : ℤ × ℤ → ℚ, K.apply g (W, H) w d = K.apply f (W, H) w d := by
  suffices hall : ∀ g : ℤ × ℤ → ℚ,
      K.apply g (W, H) w d = .ok (List.replicate W.toNat []) by
    exact ⟨hall f, fun g => (hall g).trans (hall f).symm⟩
  intro g
  unfold ConvolutionKernel.apply applyGrid
  rcases h with h | h <;> subst h
  · simp
  · simp [List.eq_replicate_iff]

theorem conv_apply_degenerate_limits_witness :
    ConvolutionKernel.apply ⟨[[1]], (0, 0)⟩ (fun _ => 1) (3, 0) 0 5 =
      .ok [[], [], []] :=
  (conv_apply_degenerate_limits ⟨[[1]], (0, 0)⟩ (fun _ => 1) 3 0 0 5
    (Or.inr rfl)).1

/-- C4: constructing from a rectangular non-empty matrix with the anchor
omitted succeeds iff both dimensions are odd, in which case the anchor is
the geometric center `((width−1)/2, (height−1)/2)`; with an even dimension
it fails with `AnchorUndeterminedError`. -/
theorem conv_init_default_anchor (m : List (List ℚ))
    (hrect : ∀ r ∈ m, ∀ s ∈ m, r.length = s.length)
    (_hW : 0 < m.length) (_hH : 0 < (m.headD []).length) :
    ((∃ K, init m none = .ok K) ↔
      (m.length % 2 = 1 ∧ (m.headD []).length % 2 = 1)) ∧
    (∀ K, init m none = .ok K →
      K.anchor = ((((m.length - 1) / 2 : ℕ) : ℤ),
                  ((((m.headD []).length - 1) / 2 : ℕ) : ℤ))) ∧
    (¬ (m.length % 2 = 1 ∧ (m.headD []).length % 2 = 1) →
      init m none = .error .anchorUndetermined) := by
  have hg := (pairwise_len_iff_guard m).mp hrect
  have heval : init m none =
      if m.length % 2 = 0 ∨ (m.headD []).length % 2 = 0 then
        Except.error KError.anchorUndetermined
      else
        Except.ok ⟨copyMatrix m,
          ((((m.length - 1) / 2 : ℕ) : ℤ),
           ((((m.headD []).length - 1) / 2 : ℕ) : ℤ))⟩ := by
    unfold init
    rw [if_neg (not_not_intro hg)]
  rw [heval]
  by_cases hodd : m.length % 2 = 0 ∨ (m.headD []).length % 2 = 0
  · rw [if_pos hodd]
    refine ⟨⟨fun ⟨K, hK⟩ => by simp at hK, fun h => by omega⟩,
            fun K hK => by simp at hK, fun _ => rfl⟩
  · rw [if_neg hodd]
    push_neg at hodd
    refine ⟨⟨fun _ => by omega, fun _ => ⟨_, rfl⟩⟩, fun K hK => ?_, fun h => ?_⟩
    · cases Except.ok.inj hK
      rfl
    · exact absurd ⟨by omega, by omega⟩ h

theorem conv_init_default_anchor_witness :
    ((∃ K, init [[(1 : ℚ), 2, 3], [4, 5, 6], [7, 8, 9]] none = .ok K) ↔
      ((3 : ℕ) % 2 = 1 ∧ (3 : ℕ) % 2 = 1)) ∧
    (∀ K, init [[(1 : ℚ), 2, 3], [4, 5, 6], [7, 8, 9]] none = .ok K →
      K.anchor = (1, 1)) := by
  have h := conv_init_default_anchor [[(1 : ℚ), 2, 3], [4, 5, 6], [7, 8, 9]]
    (by decide) (by decide) (by decide)
  exact ⟨h.1, h.2.1⟩

/-- C5: construction fails with `ShapeError` exactly when the inner
sequences do not all share one length, and the shape check runs before any
anchor handling, so a ragged matrix yields `ShapeError` whatever the anchor
argument; in particular `[[1, 2], [3]]` does. -/
theorem conv_init_shape_error (m : List (List ℚ)) (a : Option (ℤ × ℤ)) :
    (init m a = .error .shapeError ↔
      ¬ (∀ r ∈ m, ∀ s ∈ m, r.length = s.length)) ∧
    init [[(1 : ℚ), 2], [3]] a = .error .shapeError := by
  constructor
  · rw [pairwise_len_iff_guard]
    by_cases hG : ∀ inner ∈ m.drop 1, inner.length = (m.headD []).length
    · have hne : init m a ≠ .error .shapeError := by
        unfold init
        rw [if_neg (not_not_intro hG)]
        cases a <;> split_ifs <;> simp
        all_goals split_ifs <;> simp
      exact ⟨fun hcon => absurd hcon hne, fun hn => absurd hG hn⟩
    · have heq : init m a = .error .shapeError := by
        unfold init
        rw [if_pos hG]
      exact ⟨fun _ => hG, fun _ => heq⟩
  · unfold init
    rw [if_pos (by decide)]

/-- C6: cell read, cell write and anchor write fail with
`IndexOutOfRangeError` exactly when `(x, y)` is outside
`[0, width) × [0, height)`; a failing call returns only the error (no state
change is produced), and an in-range anchor write atomically replaces the
anchor with `(x, y)` while leaving the matrix untouched. -/
theorem conv_access_bounds (K : ConvolutionKernel) (x y : ℤ) (v : ℚ) :
    (K.getitem (x, y) = .error .indexOutOfRange ↔
      (x < 0 ∨ (K.width : ℤ) ≤ x ∨ y < 0 ∨ (K.height : ℤ) ≤ y)) ∧
    (K.setitem (x, y) v = .error .indexOutOfRange ↔
      (x < 0 ∨ (K.width : ℤ) ≤ x ∨ y < 0 ∨ (K.height : ℤ) ≤ y)) ∧
    (K.setAnchor (x, y) = .error .indexOutOfRange ↔
      (x < 0 ∨ (K.width : ℤ) ≤ x ∨ y < 0 ∨ (K.height : ℤ) ≤ y)) ∧
    (¬ (x < 0 ∨ (K.width : ℤ) ≤ x ∨ y < 0 ∨ (K.height : ℤ) ≤ y) →
      K.setAnchor (x, y) = .ok ⟨K.matrix, (x, y)⟩) := by
  refine ⟨?_, ?_, ?_, ?_⟩
  · unfold getitem
    split_ifs with h <;> simp at h ⊢ <;> omega
  · unfold setitem
    split_ifs with h <;> simp at h ⊢ <;> omega
  · unfold setAnchor
    split_ifs with h <;> simp at h ⊢ <;> omega
  · intro h
    unfold setAnchor
    rw [if_neg (by simp; omega)]

theorem conv_access_bounds_witness :
    (ConvolutionKernel.getitem ⟨[[1]], (0, 0)⟩ (5, 0) = .error .indexOutOfRange) ∧
    (ConvolutionKernel.setAnchor ⟨[[1]], (0, 0)⟩ (0, 0) = .ok ⟨[[1]], (0, 0)⟩) :=
  ⟨(conv_access_bounds ⟨[[1]], (0, 0)⟩ 5 0 0).1.mpr
      (by norm_num [ConvolutionKernel.width]),
   (conv_access_bounds ⟨[[1]], (0, 0)⟩ 0 0 0).2.2.2
      (by norm_num [ConvolutionKernel.width, ConvolutionKernel.height])⟩

/-- C7: the concrete scenario of §8 — kernel matrix
`[[0,-1,0],[-1,0,1],[0,1,0]]` with anchor `(1,1)`, domain `3×3`, sampler 0
everywhere except `10` at `(2,1)`, weight 1, default 0: the output at
`(1,1)` is `10`, and the output is `0` at every position whose 3×3
neighborhood does not contain `(2,1)`. -/
theorem conv_concrete_scenario :
    ConvolutionKernel.apply ⟨[[0, -1, 0], [-1, 0, 1], [0, 1, 0]], (1, 1)⟩
        (fun p => if p = (2, 1) then 10 else 0) (3, 3) 1 0 =
      .ok (ConvolutionKernel.applyGrid ⟨[[0, -1, 0], [-1, 0, 1], [0, 1, 0]], (1, 1)⟩
        (fun p => if p = (2, 1) then 10 else 0) (3, 3) 1 0) ∧
    ((ConvolutionKernel.applyGrid ⟨[[0, -1, 0], [-1, 0, 1], [0, 1, 0]], (1, 1)⟩
        (fun p => if p = (2, 1) then 10 else 0) (3, 3) 1 0).getD 1 []).getD 1 0 = 10 ∧
    ∀ ox oy : Fin 3,
      ¬ ((ox : ℤ) - 1 ≤ 2 ∧ 2 ≤ (ox : ℤ) + 1 ∧ (oy : ℤ) - 1 ≤ 1 ∧ 1 ≤ (oy : ℤ) + 1) →
      ((ConvolutionKernel.applyGrid ⟨[[0, -1, 0], [-1, 0, 1], [0, 1, 0]], (1, 1)⟩
        (fun p => if p = (2, 1) then 10 else 0) (3, 3) 1 0).getD (ox : ℕ) []).getD
        (oy : ℕ) 0 = 0 := by
  have hg : ConvolutionKernel.applyGrid ⟨[[0, -1, 0], [-1, 0, 1], [0, 1, 0]], (1, 1)⟩
      (fun p => if p = (2, 1) then 10 else 0) (3, 3) 1 0 =
      [[0, 0, 0], [0, 10, 0], [10, 0, -10]] := by
    norm_num [ConvolutionKernel.applyGrid, ConvolutionKernel.applyCell,
      ConvolutionKernel.kernelVal, ConvolutionKernel.width, ConvolutionKernel.height,
      List.range_succ, Prod.ext_iff, show (3 : ℤ).toNat = 3 from rfl]
  refine ⟨?_, ?_, ?_⟩
  · unfold ConvolutionKernel.apply
    rw [if_neg (by norm_num)]
  · rw [hg]
    rfl
  · intro ox oy
    rw [hg]
    fin_cases ox <;> fin_cases oy <;> intro h <;>
      first
        | rfl
        | exact absurd (by decide) h

theorem conv_concrete_scenario_witness :
    ((ConvolutionKernel.applyGrid ⟨[[0, -1, 0], [-1, 0, 1], [0, 1, 0]], (1, 1)⟩
        (fun p => if p = (2, 1) then 10 else 0) (3, 3) 1 0).getD 0 []).getD 0 0 = 0 :=
  conv_concrete_scenario.2.2 0 0 (by decide)

lemma applyGrid_getD (K : ConvolutionKernel) (f : ℤ × ℤ → ℚ) (W H : ℤ)
    (w d : ℚ) (ox oy : ℤ) (hox : 0 ≤ ox) (hoxW : ox < W) (hoy : 0 ≤ oy)
    (hoyH : oy < H) :
    ((ConvolutionKernel.applyGrid K f (W, H) w d).getD ox.toNat []).getD oy.toNat 0 =
      ConvolutionKernel.applyCell K f (W, H) d ox oy / w := by
  unfold ConvolutionKernel.applyGrid
  rw [getD_map_range _ _ _ (by omega), getD_map_range _ _ _ (by omega),
      Int.toNat_of_nonneg hox, Int.toNat_of_nonneg hoy]

set_option maxHeartbeats 1600000 in
/-- C8: the all-ones `3×3` kernel with weight 9 and default 0, applied over
a domain `W × H` (`W, H ≥ 3`) to a sampler that is constantly `c`
in-domain: every interior cell of the output equals `c`, and every corner
cell (5 of its 9 neighbors out-of-domain) equals `4c/9`. -/
theorem conv_border_substitution (W H : ℤ) (c : ℚ) (f : ℤ × ℤ → ℚ)
    (hW : 3 ≤ W) (hH : 3 ≤ H)
    (hf : ∀ x y : ℤ, 0 ≤ x → x < W → 0 ≤ y → y < H → f (x, y) = c) :
    ConvolutionKernel.apply ⟨[[1, 1, 1], [1, 1, 1], [1, 1, 1]], (1, 1)⟩ f (W, H) 9 0 =
      .ok (ConvolutionKernel.applyGrid ⟨[[1, 1, 1], [1, 1, 1], [1, 1, 1]], (1, 1)⟩
        f (W, H) 9 0) ∧
    (∀ ox oy : ℤ, 1 ≤ ox → ox ≤ W - 2 → 1 ≤ oy → oy ≤ H - 2 →
      ((ConvolutionKernel.applyGrid ⟨[[1, 1, 1], [1, 1, 1], [1, 1, 1]], (1, 1)⟩
          f (W, H) 9 0).getD ox.toNat []).getD oy.toNat 0 = c) ∧
    (∀ ox oy : ℤ, (ox = 0 ∨ ox = W - 1) → (oy = 0 ∨ oy = H - 1) →
      ((ConvolutionKernel.applyGrid ⟨[[1, 1, 1], [1, 1, 1], [1, 1, 1]], (1, 1)⟩
          f (W, H) 9 0).getD ox.toNat []).getD oy.toNat 0 = 4 * c / 9) := by
  refine ⟨?_, ?_, ?_⟩
  · unfold ConvolutionKernel.apply
    rw [if_neg (by norm_num)]
  · intro ox oy h1 h2 h3 h4
    rw [applyGrid_getD _ _ _ _ _ _ _ _ (by omega) (by omega) (by omega) (by omega),
        applyCell_congr _ f (fun _ => c) (W, H) 0 ox oy
          (fun x y a b e r => hf x y a b e r)]
    norm_num [applyCell_eq_sum, Finset.sum_range_succ, ConvolutionKernel.kernelVal,
      ConvolutionKernel.width, ConvolutionKernel.height]
    rw [if_pos, if_pos, if_pos, if_pos, if_pos, if_pos, if_pos, if_pos, if_pos]
    all_goals first | omega | ring
  · intro ox oy hx hy
    rw [applyGrid_getD _ _ _ _ _ _ _ _ (by omega) (by omega) (by omega) (by omega),
        applyCell_congr _ f (fun _ => c) (W, H) 0 ox oy
          (fun x y a b e r => hf x y a b e r)]
    rcases hx with rfl | rfl <;> rcases hy with rfl | rfl <;>
      · norm_num [applyCell_eq_sum, Finset.sum_range_succ, ConvolutionKernel.kernelVal,
          ConvolutionKernel.width, ConvolutionKernel.height]
        split_ifs <;> first | (exfalso; omega) | ring

theorem conv_border_substitution_witness :
    ((ConvolutionKernel.applyGrid ⟨[[1, 1, 1], [1, 1, 1], [1, 1, 1]], (1, 1)⟩
        (fun _ => 1) (3, 3) 9 0).getD (1 : ℤ).toNat []).getD (1 : ℤ).toNat 0 = 1 ∧
    ((ConvolutionKernel.applyGrid ⟨[[1, 1, 1], [1, 1, 1], [1, 1, 1]], (1, 1)⟩
        (fun _ => 1) (3, 3) 9 0).getD (0 : ℤ).toNat []).getD (0 : ℤ).toNat 0 = 4 * 1 / 9 :=
  ⟨(conv_border_substitution 3 3 1 (fun _ => 1) (by norm_num) (by norm_num)
      (fun _ _ _ _ _ _ => rfl)).2.1 1 1 (by norm_num) (by norm_num) (by norm_num)
      (by norm_num),
   (conv_border_substitution 3 3 1 (fun _ => 1) (by norm_num) (by norm_num)
      (fun _ _ _ _ _ _ => rfl)).2.2 0 0 (Or.inl rfl) (Or.inl rfl)⟩

/-- C9 counterexample: with the cross kernel `[[0,1,0],[1,0,1],[0,1,0]]`,
weight 4, default 0, a `3×3` domain and the sampler constantly `c = 0`, the
corner output `(0,0)` equals `c`, so it is not strictly less than `c`. -/
theorem conv_box_blur_counterexample :
    ((ConvolutionKernel.applyGrid ⟨[[0, 1, 0], [1, 0, 1], [0, 1, 0]], (1, 1)⟩
        (fun _ => 0) (3, 3) 4 0).getD 0 []).getD 0 0 = 0 ∧
    ¬ (((ConvolutionKernel.applyGrid ⟨[[0, 1, 0], [1, 0, 1], [0, 1, 0]], (1, 1)⟩
        (fun _ => 0) (3, 3) 4 0).getD 0 []).getD 0 0 < 0) := by
  have hg : ConvolutionKernel.applyGrid ⟨[[0, 1, 0], [1, 0, 1], [0, 1, 0]], (1, 1)⟩
      (fun _ => 0) (3, 3) 4 0 = [[0, 0, 0], [0, 0, 0], [0, 0, 0]] := by
    norm_num [ConvolutionKernel.applyGrid, ConvolutionKernel.applyCell,
      ConvolutionKernel.kernelVal, ConvolutionKernel.width, ConvolutionKernel.height,
      List.range_succ, show (3 : ℤ).toNat = 3 from rfl]
  rw [hg]
  norm_num

set_option maxHeartbeats 1600000 in
/-- C9 (amended): the cross kernel `[[0,1,0],[1,0,1],[0,1,0]]` with weight
4 and default 0 over a `W × H` domain (`W, H ≥ 3`) and a sampler constantly
`c` in-domain: every interior output equals `c`, and — provided `c > 0` —
every edge or corner output is strictly less than `c` because out-of-domain
neighbors contribute the default 0. -/
theorem conv_box_blur_normalization (W H : ℤ) (c : ℚ) (f : ℤ × ℤ → ℚ)
    (hW : 3 ≤ W) (hH : 3 ≤ H)
    (hf : ∀ x y : ℤ, 0 ≤ x → x < W → 0 ≤ y → y < H → f (x, y) = c) :
    ConvolutionKernel.apply ⟨[[0, 1, 0], [1, 0, 1], [0, 1, 0]], (1, 1)⟩ f (W, H) 4 0 =
      .ok (ConvolutionKernel.applyGrid ⟨[[0, 1, 0], [1, 0, 1], [0, 1, 0]], (1, 1)⟩
        f (W, H) 4 0) ∧
    (∀ ox oy : ℤ, 1 ≤ ox → ox ≤ W - 2 → 1 ≤ oy → oy ≤ H - 2 →
      ((ConvolutionKernel.applyGrid ⟨[[0, 1, 0], [1, 0, 1], [0, 1, 0]], (1, 1)⟩
          f (W, H) 4 0).getD ox.toNat []).getD oy.toNat 0 = c) ∧
    (0 < c → ∀ ox oy : ℤ, 0 ≤ ox → ox < W → 0 ≤ oy → oy < H →
      (ox = 0 ∨ ox = W - 1 ∨ oy = 0 ∨ oy = H - 1) →
      ((ConvolutionKernel.applyGrid ⟨[[0, 1, 0], [1, 0, 1], [0, 1, 0]], (1, 1)⟩
          f (W, H) 4 0).getD ox.toNat []).getD oy.toNat 0 < c) := by
  refine ⟨?_, ?_, ?_⟩
  · unfold ConvolutionKernel.apply
    rw [if_neg (by norm_num)]
  · intro ox oy h1 h2 h3 h4
    rw [applyGrid_getD _ _ _ _ _ _ _ _ (by omega) (by omega) (by omega) (by omega),
        applyCell_congr _ f (fun _ => c) (W, H) 0 ox oy
          (fun x y a b e r => hf x y a b e r)]
    norm_num [applyCell_eq_sum, Finset.sum_range_succ, ConvolutionKernel.kernelVal,
      ConvolutionKernel.width, ConvolutionKernel.height]
    rw [if_pos, if_pos, if_pos, if_pos]
    all_goals first | omega | ring
  · intro hc ox oy h1 h2 h3 h4 hb
    rw [applyGrid_getD _ _ _ _ _ _ _ _ (by omega) (by omega) (by omega) (by omega),
        applyCell_congr _ f (fun _ => c) (W, H) 0 ox oy
          (fun x y a b e r => hf x y a b e r)]
    rcases hb with rfl | rfl | rfl | rfl <;>
      · norm_num [applyCell_eq_sum, Finset.sum_range_succ, ConvolutionKernel.kernelVal,
          ConvolutionKernel.width, ConvolutionKernel.height]
        split_ifs <;> first | (exfalso; omega) | linarith

theorem conv_box_blur_normalization_witness :
    ((ConvolutionKernel.applyGrid ⟨[[0, 1, 0], [1, 0, 1], [0, 1, 0]], (1, 1)⟩
        (fun _ => 1) (3, 3) 4 0).getD (1 : ℤ).toNat []).getD (1 : ℤ).toNat 0 = 1 ∧
    ((ConvolutionKernel.applyGrid ⟨[[0, 1, 0], [1, 0, 1], [0, 1, 0]], (1, 1)⟩
        (fun _ => 1) (3, 3) 4 0).getD (0 : ℤ).toNat []).getD (0 : ℤ).toNat 0 < 1 :=
  ⟨(conv_box_blur_normalization 3 3 1 (fun _ => 1) (by norm_num) (by norm_num)
      (fun _ _ _ _ _ _ => rfl)).2.1 1 1 (by norm_num) (by norm_num) (by norm_num)
      (by norm_num),
   (conv_box_blur_normalization 3 3 1 (fun _ => 1) (by norm_num) (by norm_num)
      (fun _ _ _ _ _ _ => rfl)).2.2 (by norm_num) 0 0 (by norm_num) (by norm_num)
      (by norm_num) (by norm_num) (Or.inl rfl)⟩
